import Mathlib

/-!
# Verification of the simulated transcription service (`src/server.js`)

Shallow embedding of the upload lifecycle engine and its HTTP boundary from
`src/server.js`.  Timestamps and random draws (`Math.random()` values) are
modelled as rationals; each `Math.random()` / `Date.now()` / `randomUUID()`
call site of the source becomes an explicit parameter, so every function here
is a pure function of the request, the store, and the drawn values.
-/

namespace Server

/-- JSON-ish values appearing in request bodies and parsed config blobs. -/
inductive JVal where
  | str (s : String)
  | num (n : ℤ)
  | boolv (b : Bool)
  | jnull
deriving DecidableEq, Repr

/-- JavaScript truthiness for the values of `JVal`
(`""`, `0`, `false`, `null` are falsy). -/
def JVal.truthy : JVal → Bool
  | .str s => s ≠ ""
  | .num n => n ≠ 0
  | .boolv b => b
  | .jnull => false

/-- A JS object, as an association list; earlier entries shadow later ones
(lookup order), so the JS spread `\x7b...a, ...b\x7d` is `b ++ a`. -/
abbrev JObj := List (String × JVal)

/-- Key lookup in a `JObj` (first match wins). -/
def jget (o : JObj) (k : String) : Option JVal := o.lookup k

/-- JS object spread `\x7b ...a, ...b \x7d`: keys of `b` override keys of `a`. -/
def jspread (a b : JObj) : JObj := b ++ a

/-- JS `a || b` applied to an (optionally absent) object field. -/
def jsOr (a : Option JVal) (b : JVal) : JVal :=
  match a with
  | some v => if v.truthy then v else b
  | none => b

/-- `SUPPORTED_AUDIO_TYPES` (src/server.js:19-25). -/
def SUPPORTED_AUDIO_TYPES : List String :=
  ["audio/mp4", "audio/x-m4a", "audio/m4a", "audio/wav", "audio/x-wav"]

/-- The `CONFIG` object (src/server.js:31-37): rates in [0,1],
processing times in milliseconds. -/
structure Config where
  uploadFailureRate : ℚ
  timeoutRate : ℚ
  processingFailureRate : ℚ
  minProcessingTime : ℚ
  maxProcessingTime : ℚ
deriving DecidableEq, Repr

/-- The concrete `CONFIG` constant of the source. -/
def CONFIG : Config :=
  { uploadFailureRate := 15/100
    timeoutRate := 1/10
    processingFailureRate := 1/10
    minProcessingTime := 5000
    maxProcessingTime := 20000 }

/-- Upload lifecycle status strings. -/
inductive Status where
  | queued
  | processing
  | completed
  | failed
deriving DecidableEq, Repr

/-- A status is terminal when it is `completed` or `failed`. -/
def IsTerminal : Status → Prop
  | .completed => True
  | .failed => True
  | _ => False

instance : DecidablePred IsTerminal := by
  intro s; cases s <;> simp [IsTerminal] <;> infer_instance

/-- The `uploadRecord` object (src/server.js:144-157).  `completedAt` is
absent (`none`) until the record completes; `metadata` is the merged `JObj`. -/
structure UploadRecord where
  id : String
  filename : String
  mimeType : String
  size : ℕ
  metadata : JObj
  status : Status
  progress : ℤ
  createdAt : ℚ
  completesAt : ℚ
  willFail : Bool
  transcript : Option String
  error : Option String
  completedAt : Option ℚ
deriving DecidableEq, Repr

/-- JS `Math.round` on a rational: round half toward positive infinity. -/
def jsRound (x : ℚ) : ℤ := ⌊x + 1/2⌋

/-- `Math.min(100, Math.round((elapsed / totalTime) * 100))`
(src/server.js:239).  JS float semantics at `totalTime = 0`: for
`elapsed > 0` the quotient is `Infinity` and the minimum is `100`; the
`elapsed = 0` tick is unreachable in the program (the first interval tick
fires 1000 ms after creation), and is mapped to `0` here so that the
comparisons `progress > 5` and `progress >= 100` agree with their JS
outcomes on `NaN` (both false). -/
def computeProgress (elapsed totalTime : ℚ) : ℤ :=
  if totalTime = 0 then (if elapsed = 0 then 0 else 100)
  else min 100 (jsRound (elapsed / totalTime * 100))

/-- The stock sentence pool of `generateMockTranscript` (src/server.js:265-274). -/
def sentences : List String :=
  ["Hello and welcome to this recording.",
   "Today we\x27ll be discussing some important topics.",
   "Let me start by introducing the main points.",
   "First, we need to consider the background.",
   "The key insight here is quite interesting.",
   "Moving on to the next section.",
   "This brings us to our conclusion.",
   "Thank you for listening."]

/-- `generateMockTranscript` (src/server.js:264-276), with the random draw
`Math.floor(Math.random() * 5)` passed in as `n % 5`. -/
def generateMockTranscript (n : ℕ) : String :=
  String.intercalate " " (sentences.take (3 + n % 5))

/-- The progress value the interval callback computes for record `r` at wall
time `now` (src/server.js:238-239): `totalTime = completesAt - createdAt`
fixed at task start, `elapsed = now - createdAt`. -/
def progressAt (r : UploadRecord) (now : ℚ) : ℤ :=
  computeProgress (now - r.createdAt) (r.completesAt - r.createdAt)

/-- One execution of the `setInterval` callback body of `simulateProcessing`
(src/server.js:231-261) on record `r` at wall time `now`; `n` feeds the
transcript-length draw.  JS callbacks run to completion, so the whole body is
one atomic step.  (The `!record` guard of the source handles deletion from
the store, which no code path of this program performs.) -/
def tickRecord (r : UploadRecord) (now : ℚ) (n : ℕ) : UploadRecord :=
  let progress := progressAt r now
  let r1 := if r.status = .queued ∧ 5 < progress then { r with status := .processing } else r
  let r2 := { r1 with progress := progress }
  if 100 ≤ progress then
    if r.willFail then
      { r2 with status := .failed,
                error := some "Transcription failed: Unable to process audio" }
    else
      { r2 with status := .completed, progress := 100,
                completedAt := some now,
                transcript := some (generateMockTranscript n) }
  else r2

/-- The state of one record's advancement task: the record together with the
`clearInterval` flag (true once the interval has been cleared, after which
the callback never runs again). -/
def ProcState := UploadRecord × Bool

/-- One scheduled firing of the interval for task state `s` at time `now`:
if the interval was cleared nothing happens; otherwise the callback body runs,
and the interval is cleared exactly when the computed progress reached 100
(src/server.js:247-248). -/
def intervalTick (s : ProcState) (now : ℚ) (n : ℕ) : ProcState :=
  if s.2 then s
  else (tickRecord s.1 now n, decide (100 ≤ progressAt s.1 now))

/-- Run the advancement task over a list of (tick time, transcript draw)
pairs. -/
def runTicks (s : ProcState) : List (ℚ × ℕ) → ProcState
  | [] => s
  | (t, n) :: rest => runTicks (intervalTick s t n) rest

/-- The fresh `uploadRecord` built by `POST /uploads` (src/server.js:139-157):
`procD` and `willFailD` are the two `Math.random()` draws for the processing
time and the failure flag. -/
def createRecord (cfg : Config) (filename mimeType : String) (size : ℕ)
    (metadata : JObj) (uploadId : String) (now : ℚ) (procD willFailD : ℚ) :
    UploadRecord :=
  let processingTime := cfg.minProcessingTime +
    procD * (cfg.maxProcessingTime - cfg.minProcessingTime)
  { id := uploadId
    filename := filename
    mimeType := mimeType
    size := size
    metadata := metadata
    status := .queued
    progress := 0
    createdAt := now
    completesAt := now + processingTime
    willFail := decide (willFailD < cfg.processingFailureRate)
    transcript := none
    error := none
    completedAt := none }

/-- The in-memory `uploads` map (src/server.js:28), as an association list in
insertion order; `Map.set` appends a fresh key at the end. -/
abbrev Store := List (String × UploadRecord)

/-- `uploads.get(id)`. -/
def storeGet (s : Store) (id : String) : Option UploadRecord := s.lookup id

/-- `uploads.set(id, r)` for a fresh id. -/
def storeSet (s : Store) (id : String) (r : UploadRecord) : Store :=
  s ++ [(id, r)]

/-- One file received by multer: name, MIME type, size and raw contents. -/
structure UploadedFile where
  originalname : String
  mimetype : String
  size : ℕ
  buffer : String
deriving DecidableEq, Repr

/-- A `POST /uploads` request after multipart parsing: the optional `audio`
and `config` files (`req.files`) and the text fields (`req.body`). -/
structure UploadReq where
  audio : Option UploadedFile
  config : Option UploadedFile
  body : JObj
deriving DecidableEq, Repr

/-- The response bodies the server can produce. -/
inductive RespBody where
  | err (msg : String)
  | accepted (uploadId : String) (status : Status) (message : String)
  | statusOf (uploadId : String) (status : Status) (progress : ℤ)
      (filename : String) (metadata : JObj) (createdAt : ℚ)
      (transcript : Option String) (completedAt : Option ℚ)
      (error : Option String)
  | listing (items : List (String × String × Status × ℤ × ℚ))
deriving DecidableEq, Repr

/-- An HTTP response: status code and JSON body.  Timestamps are kept as the
underlying millisecond values; `new Date(t).toISOString()` is injective on
them, so equality of responses here coincides with equality of the JSON the
server sends. -/
structure Response where
  status : ℕ
  body : RespBody
deriving DecidableEq, Repr

/-- The body of the status response (src/server.js:190-208): `transcript` and
`completedAt` are attached only when status is `completed`, `error` only when
status is `failed`. -/
def statusBody (u : UploadRecord) : RespBody :=
  .statusOf u.id u.status u.progress u.filename u.metadata u.createdAt
    (if u.status = .completed then u.transcript else none)
    (if u.status = .completed then u.completedAt else none)
    (if u.status = .failed then u.error else none)

/-- One element of the `GET /uploads` listing (src/server.js:213-219):
`\x7buploadId, filename, status, progress, createdAt\x7d`. -/
def listItem (u : UploadRecord) : String × String × Status × ℤ × ℚ :=
  (u.id, u.filename, u.status, u.progress, u.createdAt)

/-- The error pool of the upload-failure branch (src/server.js:97-100). -/
def uploadErrors : List (ℕ × String) :=
  [(500, "Internal server error"), (503, "Service temporarily unavailable")]

/-- The `Math.random()` / `Date.now()` / `randomUUID()` values consumed by one
`POST /uploads` request, one per call site in source order. -/
structure Draws where
  timeoutD : ℚ
  failD : ℚ
  errD : ℚ
  slowD : ℚ
  idD : String
  nowD : ℚ
  procD : ℚ
  willFailD : ℚ
deriving DecidableEq, Repr

/-- The metadata object before the config blob is merged
(src/server.js:124-128): defaults for `language` and `speakerCount` (JS `||`,
so falsy body values also fall back), then the body fields spread on top. -/
def initialMetadata (body : JObj) : JObj :=
  jspread [("language", jsOr (jget body "language") (.str "en")),
           ("speakerCount", jsOr (jget body "speakerCount") (.num 1))] body

/-- The stored metadata (src/server.js:124-137): when a config file is
present and its buffer parses as JSON the parsed object is spread on top;
a parse failure is caught and ignored.  `parse` stands for `JSON.parse`,
returning `none` on invalid JSON. -/
def finalMetadata (body : JObj) (config : Option UploadedFile)
    (parse : String → Option JObj) : JObj :=
  match config with
  | none => initialMetadata body
  | some c =>
    match parse c.buffer with
    | none => initialMetadata body
    | some cfg => jspread (initialMetadata body) cfg

/-- The `POST /uploads` handler (src/server.js:88-169) as a pure function of
the configuration, the store, the parsed request, the `JSON.parse` oracle and
the drawn random values; returns the response and the new store.  The
slow-response branch (src/server.js:106-108) only delays the reply, so it has
no effect on either component. -/
def postUploads (cfg : Config) (store : Store) (req : UploadReq)
    (parse : String → Option JObj) (d : Draws) : Response × Store :=
  if d.timeoutD < cfg.timeoutRate then
    (⟨504, .err "Gateway timeout"⟩, store)
  else if d.failD < cfg.uploadFailureRate then
    let e := uploadErrors.getD (⌊d.errD * 2⌋).toNat (500, "Internal server error")
    (⟨e.1, .err e.2⟩, store)
  else
    match req.audio with
    | none => (⟨400, .err "No audio file uploaded"⟩, store)
    | some audioFile =>
      if audioFile.mimetype ∉ SUPPORTED_AUDIO_TYPES then
        (⟨400, .err ("Unsupported audio format: " ++ audioFile.mimetype ++
           ". Supported formats: M4A, WAV")⟩, store)
      else
        let metadata := finalMetadata req.body req.config parse
        let r := createRecord cfg audioFile.originalname audioFile.mimetype
          audioFile.size metadata d.idD d.nowD d.procD d.willFailD
        (⟨202, .accepted d.idD .queued "Upload accepted and queued for transcription"⟩,
         storeSet store d.idD r)

/-- The `GET /uploads/:uploadId/status` handler (src/server.js:172-209);
only `timeoutD` (and the response-delaying `slowD`) of the draws are
consumed on this path. -/
def getStatus (cfg : Config) (store : Store) (uploadId : String)
    (d : Draws) : Response × Store :=
  if d.timeoutD < cfg.timeoutRate then
    (⟨504, .err "Gateway timeout"⟩, store)
  else
    match storeGet store uploadId with
    | none => (⟨404, .err "Upload not found"⟩, store)
    | some u => (⟨200, statusBody u⟩, store)

/-- The `GET /uploads` handler (src/server.js:212-221). -/
def listUploads (store : Store) : Response :=
  ⟨200, .listing (store.map (fun p => listItem p.2))⟩

/-- Left-biased alternative on `Option`, spelling out JS "first defined value
wins" when reasoning about merged objects. -/
def oalt {α : Type} (a b : Option α) : Option α :=
  match a with
  | some v => some v
  | none => b

/-- The default metadata `\x7blanguage: "en", speakerCount: 1\x7d` the
spec's merge description refers to. -/
def defaultsMeta : JObj := [("language", .str "en"), ("speakerCount", .num 1)]

/-- The spec's exclusivity invariant: exactly one of `transcript` / `error`
is non-null once the status is terminal; both are null while non-terminal. -/
def ExclusiveTerminalFields (r : UploadRecord) : Prop :=
  (IsTerminal r.status →
    (r.transcript ≠ none ∧ r.error = none) ∨ (r.transcript = none ∧ r.error ≠ none)) ∧
  (¬ IsTerminal r.status → r.transcript = none ∧ r.error = none)

/-- Task states reachable for a record created by `POST /uploads` under
configuration `cfg`: the freshly created record with a live interval,
closed under interval firings. -/
inductive ReachableTask (cfg : Config) : ProcState → Prop where
  | created (filename mimeType : String) (size : ℕ) (metadata : JObj)
      (uploadId : String) (now procD willFailD : ℚ) :
      ReachableTask cfg
        (createRecord cfg filename mimeType size metadata uploadId now procD willFailD,
         false)
  | ticked {s : ProcState} (t : ℚ) (n : ℕ) :
      ReachableTask cfg s → ReachableTask cfg (intervalTick s t n)

/-- Inductive invariant of the advancement task: fields are exclusive as the
spec demands, and the interval has been cleared exactly when the record is
terminal. -/
def TaskInv (s : ProcState) : Prop :=
  ExclusiveTerminalFields s.1 ∧ (s.2 = true ↔ IsTerminal s.1.status)

/-- Progress invariant of a task state relative to a lower bound `t` on the
next tick time: durations are consistent, the stored progress is an integer
percentage in range, and while the interval is live the stored progress is at
most the value any tick at or after `t` would compute. -/
def ProgressInv (s : ProcState) (t : ℚ) : Prop :=
  s.1.createdAt ≤ s.1.completesAt ∧ s.1.createdAt ≤ t ∧
  0 ≤ s.1.progress ∧ s.1.progress ≤ 100 ∧
  (s.2 = false → s.1.progress ≤ progressAt s.1 t)

/-- The sequence of stored `progress` values observed after each successive
interval firing. -/
def progressTrace (s : ProcState) : List (ℚ × ℕ) → List ℤ
  | [] => []
  | (t, n) :: rest => (intervalTick s t n).1.progress :: progressTrace (intervalTick s t n) rest

/-- A sample record for witnesses: created under `CONFIG` at time 0 with
processing-time draw 0 (duration 5000 ms) and failure draw 1 (`willFail`
false). -/
def wRec : UploadRecord :=
  createRecord CONFIG "a.wav" "audio/wav" 4 [] "id-1" 0 0 1

/-- A sample record whose failure draw 0 makes `willFail` true. -/
def wRecF : UploadRecord :=
  createRecord CONFIG "b.wav" "audio/wav" 4 [] "id-2" 0 0 0

/-- A configuration with `minProcessingTime = maxProcessingTime = 0`. -/
def zeroCfg : Config :=
  { CONFIG with minProcessingTime := 0, maxProcessingTime := 0 }

/-- Sample draws that avoid the timeout, failure and slow-down branches. -/
def wDraws : Draws :=
  { timeoutD := 1, failD := 1, errD := 0, slowD := 1,
    idD := "id-3", nowD := 0, procD := 0, willFailD := 1 }

/-- A sample audio file of a supported MIME type. -/
def wAudio : UploadedFile := ⟨"a.wav", "audio/wav", 4, "data"⟩

/-- A sample config file whose contents stand for an invalid JSON blob. -/
def wBadConfig : UploadedFile := ⟨"c.json", "application/json", 1, "not json"⟩

/-- A `JSON.parse` oracle for witnesses that rejects every input. -/
def wParseNone : String → Option JObj := fun _ => none

/-- A `JSON.parse` oracle for witnesses that accepts every input as the
object `\x7bspeakerCount: 2\x7d`. -/
def wParseSome : String → Option JObj := fun _ => some [("speakerCount", .num 2)]

/-- Sample draws taking the simulated-timeout branch under `CONFIG`. -/
def wDrawsT0 : Draws :=
  { timeoutD := 0, failD := 1, errD := 0, slowD := 1,
    idD := "id-3", nowD := 0, procD := 0, willFailD := 1 }

/-- Sample draws taking the simulated-upload-failure branch under `CONFIG`. -/
def wDrawsF0 : Draws :=
  { timeoutD := 1, failD := 0, errD := 0, slowD := 1,
    idD := "id-3", nowD := 0, procD := 0, willFailD := 1 }

/-- A sample request carrying a supported audio file and no config file. -/
def wReqA : UploadReq := ⟨some wAudio, none, []⟩

/-- A sample request with no audio file at all. -/
def wReqNoAudio : UploadReq := ⟨none, none, []⟩

/-- A sample audio file of an unsupported MIME type. -/
def wBadAudio : UploadedFile := ⟨"a.ogg", "audio/ogg", 4, "x"⟩

/-- A sample request whose audio file has an unsupported MIME type. -/
def wReqBadFmt : UploadReq := ⟨some wBadAudio, none, []⟩

/-! ## Basic lemmas about the progress computation -/

theorem jsRound_mono {x y : ℚ} (h : x ≤ y) : jsRound x ≤ jsRound y :=
  Int.floor_le_floor (by linarith)

theorem computeProgress_le_100 (e T : ℚ) : computeProgress e T ≤ 100 := by
  unfold computeProgress
  split
  · split <;> norm_num
  · exact min_le_left _ _

theorem computeProgress_nonneg {e T : ℚ} (he : 0 ≤ e) (hT : 0 ≤ T) :
    0 ≤ computeProgress e T := by
  unfold computeProgress
  split
  · split <;> norm_num
  · rename_i hT0
    have hT' : 0 < T := lt_of_le_of_ne hT (Ne.symm hT0)
    refine le_min (by norm_num) ?_
    rw [jsRound, Int.le_floor]
    have h1 : 0 ≤ e / T * 100 := by positivity
    push_cast
    linarith

theorem computeProgress_mono {e₁ e₂ T : ℚ} (h0 : 0 ≤ e₁) (h : e₁ ≤ e₂)
    (hT : 0 ≤ T) : computeProgress e₁ T ≤ computeProgress e₂ T := by
  unfold computeProgress
  split
  · split
    · split <;> norm_num
    · rename_i he1
      have he2 : e₂ ≠ 0 := by
        have : 0 < e₁ := lt_of_le_of_ne h0 (Ne.symm he1)
        intro h'; rw [h'] at h; linarith
      rw [if_neg he2]
  · rename_i hT0
    have hT' : 0 < T := lt_of_le_of_ne hT (Ne.symm hT0)
    refine min_le_min le_rfl (jsRound_mono ?_)
    have := (div_le_div_iff_of_pos_right hT').mpr h
    nlinarith [this]

/-! ## Characterizations of one interval callback execution -/

theorem tickRecord_of_ge (r : UploadRecord) (now : ℚ) (n : ℕ)
    (hp : 100 ≤ progressAt r now) :
    tickRecord r now n =
      if r.willFail then
        { r with status := .failed, progress := progressAt r now,
                 error := some "Transcription failed: Unable to process audio" }
      else
        { r with status := .completed, progress := 100,
                 completedAt := some now,
                 transcript := some (generateMockTranscript n) } := by
  simp only [tickRecord, if_pos hp]
  split <;> split <;> rfl

theorem tickRecord_of_lt (r : UploadRecord) (now : ℚ) (n : ℕ)
    (hp : progressAt r now < 100) :
    tickRecord r now n =
      if r.status = .queued ∧ 5 < progressAt r now then
        { r with status := .processing, progress := progressAt r now }
      else
        { r with progress := progressAt r now } := by
  simp only [tickRecord, if_neg (not_le.mpr hp)]
  split <;> rfl

/-! ## C1: the tick reaching 100 stops the task and applies the outcome -/

/-- C1: on the tick where the computed progress reaches 100 the advancement
task clears its interval (no further tick changes the state) and applies the
pre-determined outcome: with `willFail` the record becomes `failed` with the
fixed error message and a still-null transcript; otherwise it becomes
`completed` with `progress = 100`, `completedAt` the tick time, and a
non-null generated transcript. -/
theorem tick_reaching_100_applies_outcome (r : UploadRecord) (now : ℚ) (n : ℕ)
    (hp : 100 ≤ progressAt r now) (ht : r.transcript = none) :
    IsTerminal (tickRecord r now n).status ∧
    (intervalTick (r, false) now n).2 = true ∧
    (∀ t m, intervalTick (intervalTick (r, false) now n) t m =
      intervalTick (r, false) now n) ∧
    (r.willFail = true →
      (tickRecord r now n).status = .failed ∧
      (tickRecord r now n).error =
        some "Transcription failed: Unable to process audio" ∧
      (tickRecord r now n).transcript = none) ∧
    (r.willFail = false →
      (tickRecord r now n).status = .completed ∧
      (tickRecord r now n).progress = 100 ∧
      (tickRecord r now n).completedAt = some now ∧
      (tickRecord r now n).transcript = some (generateMockTranscript n)) := by
  have hflag : intervalTick (r, false) now n = (tickRecord r now n, true) := by
    simp [intervalTick, hp]
  refine ⟨?_, ?_, ?_, ?_, ?_⟩
  · rcases hw : r.willFail <;>
      simp [tickRecord_of_ge r now n hp, hw, IsTerminal]
  · rw [hflag]
  · intro t m
    rw [hflag]
    simp [intervalTick]
  · intro hw
    simp [tickRecord_of_ge r now n hp, hw, ht]
  · intro hw
    simp [tickRecord_of_ge r now n hp, hw]

theorem wRec_progressAt_10000 : progressAt wRec 10000 = 100 := by
  norm_num [progressAt, computeProgress, jsRound, wRec, createRecord, CONFIG]

/-- Witness for C1 at a concrete record and tick time. -/
theorem tick_reaching_100_applies_outcome_witness :
    100 ≤ progressAt wRec 10000 ∧ wRec.transcript = none ∧
    (IsTerminal (tickRecord wRec 10000 0).status ∧
    (intervalTick (wRec, false) 10000 0).2 = true ∧
    (∀ t m, intervalTick (intervalTick (wRec, false) 10000 0) t m =
      intervalTick (wRec, false) 10000 0) ∧
    (wRec.willFail = true →
      (tickRecord wRec 10000 0).status = .failed ∧
      (tickRecord wRec 10000 0).error =
        some "Transcription failed: Unable to process audio" ∧
      (tickRecord wRec 10000 0).transcript = none) ∧
    (wRec.willFail = false →
      (tickRecord wRec 10000 0).status = .completed ∧
      (tickRecord wRec 10000 0).progress = 100 ∧
      (tickRecord wRec 10000 0).completedAt = some 10000 ∧
      (tickRecord wRec 10000 0).transcript = some (generateMockTranscript 0))) :=
  ⟨by rw [wRec_progressAt_10000], rfl,
   tick_reaching_100_applies_outcome wRec 10000 0 (by rw [wRec_progressAt_10000]) rfl⟩

/-! ## C3: the guard of the `queued` to `processing` transition -/

/-- C3: a tick moves a record into `processing` only from `queued`, and only
when the computed progress is strictly between 5 and 100; for a `queued`
record this guard is exact, so a tick that already computes progress at or
above 100 never produces the `processing` state. -/
theorem queued_to_processing_guard (r : UploadRecord) (now : ℚ) (n : ℕ) :
    ((tickRecord r now n).status = .processing ∧ r.status ≠ .processing →
      r.status = .queued ∧ 5 < progressAt r now ∧ progressAt r now < 100) ∧
    (r.status = .queued →
      ((tickRecord r now n).status = .processing ↔
        5 < progressAt r now ∧ progressAt r now < 100)) := by
  rcases le_or_lt 100 (progressAt r now) with hp | hp
  · rw [tickRecord_of_ge r now n hp]
    constructor
    · rcases r.willFail <;> simp
    · intro _
      rcases r.willFail <;> simp <;> omega
  · rw [tickRecord_of_lt r now n hp]
    by_cases hc : r.status = .queued ∧ 5 < progressAt r now
    · simp only [if_pos hc]
      exact ⟨fun _ => ⟨hc.1, hc.2, hp⟩, fun _ => by simpa using ⟨hc.2, hp⟩⟩
    · simp only [if_neg hc]
      constructor
      · intro ⟨h1, h2⟩
        exact absurd h1 h2
      · intro hq
        rw [hq] at hc ⊢
        simp at hc ⊢
        omega

theorem wRec_progressAt_1000 : progressAt wRec 1000 = 20 := by
  norm_num [progressAt, computeProgress, jsRound, wRec, createRecord, CONFIG]

/-- Witness for C3: the second tick of the sample record (progress 20)
enters `processing`. -/
theorem queued_to_processing_guard_witness :
    wRec.status = .queued ∧ progressAt wRec 1000 = 20 ∧
    ((tickRecord wRec 1000 0).status = .processing ↔
      5 < progressAt wRec 1000 ∧ progressAt wRec 1000 < 100) :=
  ⟨rfl, wRec_progressAt_1000, (queued_to_processing_guard wRec 1000 0).2 rfl⟩

/-! ## C5: exclusivity of terminal fields and terminal freezing -/

theorem taskInv_created (cfg : Config) (filename mimeType : String) (size : ℕ)
    (metadata : JObj) (uploadId : String) (now procD willFailD : ℚ) :
    TaskInv (createRecord cfg filename mimeType size metadata uploadId now
      procD willFailD, false) := by
  constructor <;> simp [ExclusiveTerminalFields, createRecord, IsTerminal]

theorem taskInv_tick {s : ProcState} (h : TaskInv s) (t : ℚ) (n : ℕ) :
    TaskInv (intervalTick s t n) := by
  rcases s with ⟨r, fl⟩
  rcases fl
  case true => simpa [intervalTick] using h
  case false =>
    obtain ⟨hexcl, hiff⟩ := h
    have hnt : ¬ IsTerminal r.status := fun hterm => by
      simpa using hiff.mpr hterm
    have htr : r.transcript = none := (hexcl.2 hnt).1
    have herr : r.error = none := (hexcl.2 hnt).2
    have hstep : intervalTick (r, false) t n =
        (tickRecord r t n, decide (100 ≤ progressAt r t)) := rfl
    rw [hstep]
    rcases le_or_lt 100 (progressAt r t) with hp | hp
    · have hd : decide (100 ≤ progressAt r t) = true := decide_eq_true hp
      rw [tickRecord_of_ge r t n hp, hd]
      rcases hw : r.willFail
      · rw [if_neg (by simp [hw])]
        exact ⟨⟨fun _ => Or.inl ⟨by simp, herr⟩,
                fun hterm => absurd trivial hterm⟩, by simp [IsTerminal]⟩
      · rw [if_pos (by simp [hw])]
        exact ⟨⟨fun _ => Or.inr ⟨htr, by simp⟩,
                fun hterm => absurd trivial hterm⟩, by simp [IsTerminal]⟩
    · have hd : decide (100 ≤ progressAt r t) = false := by
        simpa using not_le.mpr hp
      rw [tickRecord_of_lt r t n hp, hd]
      by_cases hc : r.status = .queued ∧ 5 < progressAt r t
      · rw [if_pos hc]
        exact ⟨⟨fun hterm => absurd hterm (by simp [IsTerminal]),
                fun _ => ⟨htr, herr⟩⟩, by simp [IsTerminal]⟩
      · rw [if_neg hc]
        exact ⟨⟨fun hterm => absurd hterm hnt, fun _ => ⟨htr, herr⟩⟩,
               by simpa using hnt⟩

theorem taskInv_of_reachable {cfg : Config} {s : ProcState}
    (h : ReachableTask cfg s) : TaskInv s := by
  induction h with
  | created filename mimeType size metadata uploadId now procD willFailD =>
    exact taskInv_created cfg filename mimeType size metadata uploadId now
      procD willFailD
  | ticked t n _ ih => exact taskInv_tick ih t n

/-- C5: in every reachable task state, exactly one of `transcript`/`error`
is non-null once the status is terminal and both are null before; and once
terminal, no further interval firing changes anything (the interval was
cleared in the same callback execution that set the terminal status). -/
theorem terminal_fields_exclusive_and_frozen {cfg : Config} {s : ProcState}
    (h : ReachableTask cfg s) :
    ExclusiveTerminalFields s.1 ∧
    (IsTerminal s.1.status → ∀ t n, intervalTick s t n = s) := by
  obtain ⟨hexcl, hiff⟩ := taskInv_of_reachable h
  refine ⟨hexcl, fun hterm t n => ?_⟩
  have hs : s.2 = true := hiff.mpr hterm
  simp [intervalTick, hs]

/-- Witness for C5 at the freshly created sample record. -/
theorem terminal_fields_exclusive_and_frozen_witness :
    ExclusiveTerminalFields wRec ∧
    (IsTerminal wRec.status →
      ∀ t n, intervalTick (wRec, false) t n = (wRec, false)) :=
  terminal_fields_exclusive_and_frozen
    (ReachableTask.created "a.wav" "audio/wav" 4 [] "id-1" 0 0 1)

/-! ## C2: progress stays an integer in [0,100] and is non-decreasing -/

theorem progressInv_weaken {s : ProcState} {t t' : ℚ} (h : ProgressInv s t)
    (htt : t ≤ t') : ProgressInv s t' := by
  obtain ⟨h1, h2, h3, h4, h5⟩ := h
  refine ⟨h1, le_trans h2 htt, h3, h4, fun hf => le_trans (h5 hf) ?_⟩
  exact computeProgress_mono (sub_nonneg.mpr h2) (by linarith)
    (sub_nonneg.mpr h1)

theorem progressInv_step {s : ProcState} {t : ℚ} (h : ProgressInv s t)
    (n : ℕ) :
    ProgressInv (intervalTick s t n) t ∧
    s.1.progress ≤ (intervalTick s t n).1.progress := by
  rcases s with ⟨r, fl⟩
  obtain ⟨h1, h2, h3, h4, h5⟩ := h
  rcases fl
  case true => exact ⟨⟨h1, h2, h3, h4, h5⟩, le_rfl⟩
  case false =>
    have hstep : intervalTick (r, false) t n =
        (tickRecord r t n, decide (100 ≤ progressAt r t)) := rfl
    have hpn : 0 ≤ progressAt r t :=
      computeProgress_nonneg (sub_nonneg.mpr h2) (sub_nonneg.mpr h1)
    have hple : progressAt r t ≤ 100 := computeProgress_le_100 _ _
    have hold : r.progress ≤ progressAt r t := h5 rfl
    rw [hstep]
    rcases le_or_lt 100 (progressAt r t) with hp | hp
    · have hd : decide (100 ≤ progressAt r t) = true := decide_eq_true hp
      rw [tickRecord_of_ge r t n hp, hd]
      rcases hw : r.willFail
      · rw [if_neg (by simp [hw])]
        exact ⟨⟨h1, h2, by norm_num, by norm_num,
          fun hf => by simp at hf⟩, h4⟩
      · rw [if_pos (by simp [hw])]
        exact ⟨⟨h1, h2, hpn, hple, fun hf => by simp at hf⟩, hold⟩
    · have hd : decide (100 ≤ progressAt r t) = false := by
        simpa using not_le.mpr hp
      rw [tickRecord_of_lt r t n hp, hd]
      by_cases hc : r.status = .queued ∧ 5 < progressAt r t
      · rw [if_pos hc]
        exact ⟨⟨h1, h2, hpn, hple, fun _ => le_rfl⟩, hold⟩
      · rw [if_neg hc]
        exact ⟨⟨h1, h2, hpn, hple, fun _ => le_rfl⟩, hold⟩

theorem progressTrace_bounded_mono {ts : List (ℚ × ℕ)} {s : ProcState}
    {t₀ : ℚ} (h : ProgressInv s t₀)
    (hc : List.Chain (· ≤ ·) t₀ (ts.map Prod.fst)) :
    (∀ p ∈ progressTrace s ts, 0 ≤ p ∧ p ≤ 100) ∧
    List.Chain' (· ≤ ·) (s.1.progress :: progressTrace s ts) := by
  induction ts generalizing s t₀ with
  | nil => exact ⟨by simp [progressTrace], by simp [progressTrace]⟩
  | cons tn rest ih =>
    obtain ⟨t, n⟩ := tn
    rw [List.map_cons, List.chain_cons] at hc
    obtain ⟨ht₀t, hrest⟩ := hc
    have hw := progressInv_weaken h ht₀t
    obtain ⟨hinv', hmono⟩ := progressInv_step hw n
    obtain ⟨ihb, ihc⟩ := ih hinv' hrest
    refine ⟨?_, ?_⟩
    · intro p hp
      rw [progressTrace, List.mem_cons] at hp
      rcases hp with hp | hp
      · exact hp ▸ ⟨hinv'.2.2.1, hinv'.2.2.2.1⟩
      · exact ihb p hp
    · rw [progressTrace, List.chain'_cons]
      exact ⟨hmono, ihc⟩

theorem progressInv_created (cfg : Config) (filename mimeType : String)
    (size : ℕ) (metadata : JObj) (uploadId : String) (now procD willFailD : ℚ)
    (hproc : 0 ≤ procD) (hcfg1 : 0 ≤ cfg.minProcessingTime)
    (hcfg2 : cfg.minProcessingTime ≤ cfg.maxProcessingTime) :
    ProgressInv (createRecord cfg filename mimeType size metadata uploadId now
      procD willFailD, false) now := by
  have hdur : 0 ≤ cfg.minProcessingTime +
      procD * (cfg.maxProcessingTime - cfg.minProcessingTime) := by nlinarith
  refine ⟨?_, le_rfl, le_rfl, by norm_num [createRecord], fun _ => ?_⟩
  · show now ≤ now + (cfg.minProcessingTime +
      procD * (cfg.maxProcessingTime - cfg.minProcessingTime))
    linarith
  · show (0 : ℤ) ≤ computeProgress (now - now)
      (now + (cfg.minProcessingTime +
        procD * (cfg.maxProcessingTime - cfg.minProcessingTime)) - now)
    exact computeProgress_nonneg (by linarith) (by linarith)

/-- C2: for every created record and every non-decreasing sequence of tick
times starting at or after creation, the stored `progress` is an integer in
[0,100] after every tick, and the observed sequence of stored progress
values (starting from the initial 0) is non-decreasing. -/
theorem progress_bounded_and_monotone (cfg : Config) (filename mimeType : String)
    (size : ℕ) (metadata : JObj) (uploadId : String) (now procD willFailD : ℚ)
    (ts : List (ℚ × ℕ)) (hproc : 0 ≤ procD)
    (hcfg1 : 0 ≤ cfg.minProcessingTime)
    (hcfg2 : cfg.minProcessingTime ≤ cfg.maxProcessingTime)
    (hchain : List.Chain (· ≤ ·) now (ts.map Prod.fst)) :
    (∀ p ∈ (createRecord cfg filename mimeType size metadata uploadId now
        procD willFailD).progress ::
        progressTrace (createRecord cfg filename mimeType size metadata
          uploadId now procD willFailD, false) ts,
      0 ≤ p ∧ p ≤ 100) ∧
    List.Chain' (· ≤ ·)
      ((createRecord cfg filename mimeType size metadata uploadId now
        procD willFailD).progress ::
        progressTrace (createRecord cfg filename mimeType size metadata
          uploadId now procD willFailD, false) ts) := by
  have hinv := progressInv_created cfg filename mimeType size metadata
    uploadId now procD willFailD hproc hcfg1 hcfg2
  obtain ⟨hb, hc⟩ := progressTrace_bounded_mono hinv hchain
  refine ⟨?_, hc⟩
  intro p hp
  rw [List.mem_cons] at hp
  rcases hp with hp | hp
  · rw [hp]
    exact ⟨by norm_num [createRecord], by norm_num [createRecord]⟩
  · exact hb p hp

/-- Witness for C2: the sample record ticked at times 1000 and 10000. -/
theorem progress_bounded_and_monotone_witness :
    List.Chain (· ≤ ·) (0 : ℚ) ([((1000 : ℚ), (0 : ℕ)), (10000, 0)].map Prod.fst) ∧
    ((∀ p ∈ (createRecord CONFIG "a.wav" "audio/wav" 4 [] "id-1" 0 0 1).progress ::
        progressTrace (createRecord CONFIG "a.wav" "audio/wav" 4 [] "id-1" 0 0 1,
          false) [((1000 : ℚ), (0 : ℕ)), (10000, 0)],
      0 ≤ p ∧ p ≤ 100) ∧
    List.Chain' (· ≤ ·)
      ((createRecord CONFIG "a.wav" "audio/wav" 4 [] "id-1" 0 0 1).progress ::
        progressTrace (createRecord CONFIG "a.wav" "audio/wav" 4 [] "id-1" 0 0 1,
          false) [((1000 : ℚ), (0 : ℕ)), (10000, 0)])) :=
  ⟨by norm_num,
   progress_bounded_and_monotone CONFIG "a.wav" "audio/wav" 4 [] "id-1" 0 0 1
     [((1000 : ℚ), (0 : ℕ)), (10000, 0)] le_rfl (by norm_num [CONFIG])
     (by norm_num [CONFIG]) (by norm_num)⟩

/-! ## C4: zero configured duration terminates on the first tick -/

/-- C4: with `minProcessingTime = maxProcessingTime = 0` the created record
has `completesAt = createdAt`, so any tick strictly after creation computes
progress 100 (the JS quotient is `Infinity`) and the single atomic callback
takes the record from `queued` straight to its terminal state, never
producing an observable `processing` state. -/
theorem zero_duration_first_tick_terminal (cfg : Config)
    (hmin : cfg.minProcessingTime = 0) (hmax : cfg.maxProcessingTime = 0)
    (filename mimeType : String) (size : ℕ) (metadata : JObj)
    (uploadId : String) (now procD willFailD t : ℚ) (n : ℕ) (ht : now < t) :
    (createRecord cfg filename mimeType size metadata uploadId now procD
      willFailD).status = .queued ∧
    progressAt (createRecord cfg filename mimeType size metadata uploadId now
      procD willFailD) t = 100 ∧
    IsTerminal (tickRecord (createRecord cfg filename mimeType size metadata
      uploadId now procD willFailD) t n).status ∧
    (tickRecord (createRecord cfg filename mimeType size metadata uploadId now
      procD willFailD) t n).status ≠ .processing ∧
    (tickRecord (createRecord cfg filename mimeType size metadata uploadId now
      procD willFailD) t n).status =
      (if (createRecord cfg filename mimeType size metadata uploadId now procD
        willFailD).willFail then Status.failed else Status.completed) := by
  set r := createRecord cfg filename mimeType size metadata uploadId now
    procD willFailD with hr
  have hT : r.completesAt - r.createdAt = 0 := by
    simp [hr, createRecord, hmin, hmax]
  have he : t - r.createdAt ≠ 0 := by
    have : r.createdAt = now := rfl
    rw [this]
    exact sub_ne_zero_of_ne (ne_of_gt ht)
  have hprog : progressAt r t = 100 := by
    rw [progressAt, hT, computeProgress, if_pos rfl, if_neg he]
  have hp : (100 : ℤ) ≤ progressAt r t := by rw [hprog]
  refine ⟨rfl, hprog, ?_, ?_, ?_⟩ <;>
    rcases hw : r.willFail <;>
      simp [tickRecord_of_ge r t n hp, hw, IsTerminal]

theorem zeroCfg_progress : progressAt
    (createRecord zeroCfg "a.wav" "audio/wav" 4 [] "id-z" 0 0 1) 1000 = 100 := by
  norm_num [progressAt, computeProgress, createRecord, zeroCfg, CONFIG]

/-- Witness for C4: zero-duration configuration, first tick at 1000 ms. -/
theorem zero_duration_first_tick_terminal_witness :
    zeroCfg.minProcessingTime = 0 ∧ zeroCfg.maxProcessingTime = 0 ∧
    (0 : ℚ) < 1000 ∧
    ((createRecord zeroCfg "a.wav" "audio/wav" 4 [] "id-z" 0 0 1).status =
      .queued ∧
    progressAt (createRecord zeroCfg "a.wav" "audio/wav" 4 [] "id-z" 0 0 1)
      1000 = 100 ∧
    IsTerminal (tickRecord (createRecord zeroCfg "a.wav" "audio/wav" 4 []
      "id-z" 0 0 1) 1000 0).status ∧
    (tickRecord (createRecord zeroCfg "a.wav" "audio/wav" 4 [] "id-z" 0 0 1)
      1000 0).status ≠ .processing ∧
    (tickRecord (createRecord zeroCfg "a.wav" "audio/wav" 4 [] "id-z" 0 0 1)
      1000 0).status =
      (if (createRecord zeroCfg "a.wav" "audio/wav" 4 [] "id-z" 0 0 1).willFail
        then Status.failed else Status.completed)) :=
  ⟨rfl, rfl, by norm_num,
   zero_duration_first_tick_terminal zeroCfg rfl rfl "a.wav" "audio/wav" 4 []
     "id-z" 0 0 1 1000 0 (by norm_num)⟩

/-! ## C6: simulated timeout and failure branches do not touch state -/

/-- C6: the simulated-timeout branch of both request paths and the
simulated-upload-failure branch of `POST /uploads` return their error
response with the store unchanged, and the response does not depend on the
store (the branch neither reads nor writes any upload record). -/
theorem simulated_failure_branches_preserve_state (cfg : Config)
    (store : Store) (req : UploadReq) (parse : String → Option JObj)
    (d : Draws) (uploadId : String) :
    (d.timeoutD < cfg.timeoutRate →
      postUploads cfg store req parse d =
        (⟨504, .err "Gateway timeout"⟩, store) ∧
      getStatus cfg store uploadId d =
        (⟨504, .err "Gateway timeout"⟩, store)) ∧
    (¬ d.timeoutD < cfg.timeoutRate → d.failD < cfg.uploadFailureRate →
      (postUploads cfg store req parse d).2 = store ∧
      ∀ store', (postUploads cfg store' req parse d).1 =
        (postUploads cfg store req parse d).1) := by
  constructor
  · intro h
    constructor <;> simp [postUploads, getStatus, h]
  · intro h1 h2
    constructor <;> simp [postUploads, h1, h2]

/-- Witness for C6: a timeout draw of 0 takes the timeout branch under
`CONFIG`; a failure draw of 0 takes the failure branch; the store is
untouched in both cases. -/
theorem simulated_failure_branches_preserve_state_witness :
    postUploads CONFIG [] wReqA wParseNone wDrawsT0 =
      (⟨504, .err "Gateway timeout"⟩, []) ∧
    getStatus CONFIG [] "id-1" wDrawsT0 =
      (⟨504, .err "Gateway timeout"⟩, []) ∧
    (postUploads CONFIG [] wReqA wParseNone wDrawsF0).2 = [] := by
  have hT := (simulated_failure_branches_preserve_state CONFIG [] wReqA
    wParseNone wDrawsT0 "id-1").1 (by norm_num [wDrawsT0, CONFIG])
  have hF := (simulated_failure_branches_preserve_state CONFIG [] wReqA
    wParseNone wDrawsF0 "id-1").2 (by norm_num [wDrawsF0, CONFIG])
    (by norm_num [wDrawsF0, CONFIG])
  exact ⟨hT.1, hT.2, hF.1⟩

/-! ## C7: unknown ids give a defined not-found result -/

/-- C7: away from the boundary's simulated-timeout branch, the status query
is total: an id missing from the store yields the 404 not-found response and
a present id yields the 200 snapshot — both defined results, and the only
two outcomes the engine layer produces. -/
theorem get_unknown_id_returns_not_found (cfg : Config) (store : Store)
    (uploadId : String) (d : Draws)
    (hto : ¬ d.timeoutD < cfg.timeoutRate) :
    (storeGet store uploadId = none →
      getStatus cfg store uploadId d =
        (⟨404, .err "Upload not found"⟩, store)) ∧
    (∀ u, storeGet store uploadId = some u →
      getStatus cfg store uploadId d = (⟨200, statusBody u⟩, store)) := by
  constructor
  · intro h
    simp [getStatus, hto, h]
  · intro u h
    simp [getStatus, hto, h]

/-- Witness for C7: a lookup of an unused id on a store holding the sample
record. -/
theorem get_unknown_id_returns_not_found_witness :
    storeGet [("id-1", wRec)] "unused-id" = none ∧
    getStatus CONFIG [("id-1", wRec)] "unused-id" wDraws =
      (⟨404, .err "Upload not found"⟩, [("id-1", wRec)]) :=
  have h : storeGet [("id-1", wRec)] "unused-id" = none := rfl
  ⟨h, (get_unknown_id_returns_not_found CONFIG [("id-1", wRec)] "unused-id"
    wDraws (by norm_num [wDraws, CONFIG])).1 h⟩

/-! ## C8: metadata merging and invalid config blobs -/

theorem jget_append (a b : JObj) (k : String) :
    jget (a ++ b) k = oalt (jget a k) (jget b k) := by
  induction a with
  | nil => simp [jget, oalt, List.lookup]
  | cons p rest ih =>
    obtain ⟨key, v⟩ := p
    simp only [jget, List.cons_append, List.lookup] at *
    cases h : k == key
    · simpa [h, oalt] using ih
    · simp [h, oalt]

theorem jget_initialMetadata (body : JObj) (k : String) :
    jget (initialMetadata body) k =
      oalt (jget body k) (jget defaultsMeta k) := by
  rw [initialMetadata, jspread, jget_append]
  rcases hb : jget body k with _ | v
  · simp only [oalt]
    by_cases h1 : k = "language"
    · subst h1
      rw [hb]
      simp [jget, List.lookup, defaultsMeta, jsOr]
    · by_cases h2 : k = "speakerCount"
      · subst h2
        rw [hb]
        simp [jget, List.lookup, defaultsMeta, jsOr]
      · have h1' : (k == "language") = false := beq_eq_false_iff_ne.mpr h1
        have h2' : (k == "speakerCount") = false := beq_eq_false_iff_ne.mpr h2
        simp [jget, List.lookup, defaultsMeta, h1', h2']
  · simp [oalt]

/-- C8: the stored metadata looks keys up in the parsed config blob first,
then the request body, then the defaults `\x7blanguage: "en",
speakerCount: 1\x7d`; and when the config blob fails to parse, the whole
`POST /uploads` handler behaves exactly as if no config file had been sent
(the upload is still accepted with the metadata it would have had). -/
theorem metadata_merges_defaults_and_ignores_invalid_config (cfg : Config)
    (store : Store) (req : UploadReq) (parse : String → Option JObj)
    (d : Draws) (body : JObj) (cfgFile : UploadedFile) (cfgObj : JObj) :
    (∀ k, jget (finalMetadata body none parse) k =
      oalt (jget body k) (jget defaultsMeta k)) ∧
    (parse cfgFile.buffer = some cfgObj →
      ∀ k, jget (finalMetadata body (some cfgFile) parse) k =
        oalt (jget cfgObj k) (oalt (jget body k) (jget defaultsMeta k))) ∧
    (parse cfgFile.buffer = none →
      postUploads cfg store { req with config := some cfgFile } parse d =
        postUploads cfg store { req with config := none } parse d) := by
  refine ⟨fun k => jget_initialMetadata body k, fun h k => ?_, fun h => ?_⟩
  · simp only [finalMetadata, h]
    rw [jspread, jget_append, jget_initialMetadata]
  · unfold postUploads
    simp only [finalMetadata, h]

/-- Witness for C8: concrete lookups of the merged metadata and the
invalid-blob request equivalence. -/
theorem metadata_merges_defaults_witness :
    jget (finalMetadata [] none wParseNone) "language" =
      oalt (jget ([] : JObj) "language") (jget defaultsMeta "language") ∧
    jget (finalMetadata [] (some wBadConfig) wParseSome) "speakerCount" =
      oalt (jget [("speakerCount", JVal.num 2)] "speakerCount")
        (oalt (jget ([] : JObj) "speakerCount")
          (jget defaultsMeta "speakerCount")) ∧
    postUploads CONFIG [] { wReqA with config := some wBadConfig } wParseNone
        wDraws =
      postUploads CONFIG [] { wReqA with config := none } wParseNone wDraws := by
  have h1 := metadata_merges_defaults_and_ignores_invalid_config CONFIG []
    wReqA wParseSome wDraws [] wBadConfig [("speakerCount", JVal.num 2)]
  have h2 := metadata_merges_defaults_and_ignores_invalid_config CONFIG []
    wReqA wParseNone wDraws [] wBadConfig [("speakerCount", JVal.num 2)]
  exact ⟨h2.1 "language", h1.2.1 rfl "speakerCount", h2.2.2 rfl⟩

/-! ## C9: responses do not expose willFail or completesAt -/

/-- C9: the status-response body and the listing element of a record are
unchanged under any modification of its `willFail` flag and `completesAt`
timestamp — neither field is exposed, so two records identical except for
`willFail` produce identical Get and List responses. -/
theorem responses_hide_willFail_and_completesAt (u : UploadRecord) (b : Bool)
    (t : ℚ) :
    statusBody { u with willFail := b, completesAt := t } = statusBody u ∧
    listItem { u with willFail := b, completesAt := t } = listItem u := by
  constructor <;> rfl

/-! ## C10: random draws are evaluated before input validation -/

theorem floor_mul_two_cases {x : ℚ} (h0 : 0 ≤ x) (h1 : x < 1) :
    ⌊x * 2⌋ = 0 ∨ ⌊x * 2⌋ = 1 := by
  have ha : (0 : ℤ) ≤ ⌊x * 2⌋ := Int.le_floor.mpr (by push_cast; linarith)
  have hb : ⌊x * 2⌋ < 2 := Int.floor_lt.mpr (by push_cast; linarith)
  omega

/-- C10: on `POST /uploads` the simulated timeout and failure branches are
evaluated before validation, so a request with no audio file (or with an
unsupported format) can receive 504, or 500/503, instead of its 400; when
none of the random branches is taken (the slow-down branch only delays the
reply) the 400 validation error is produced with the store unchanged. -/
theorem random_branches_precede_validation (cfg : Config) (store : Store)
    (req₁ req₂ : UploadReq) (parse : String → Option JObj) (d : Draws)
    (f : UploadedFile) (h₁ : req₁.audio = none) (h₂ : req₂.audio = some f)
    (hf : f.mimetype ∉ SUPPORTED_AUDIO_TYPES) :
    (d.timeoutD < cfg.timeoutRate →
      (postUploads cfg store req₁ parse d).1.status = 504 ∧
      (postUploads cfg store req₂ parse d).1.status = 504) ∧
    (¬ d.timeoutD < cfg.timeoutRate → d.failD < cfg.uploadFailureRate →
      0 ≤ d.errD → d.errD < 1 →
      ((postUploads cfg store req₁ parse d).1.status = 500 ∨
        (postUploads cfg store req₁ parse d).1.status = 503)) ∧
    (¬ d.timeoutD < cfg.timeoutRate → ¬ d.failD < cfg.uploadFailureRate →
      ¬ d.slowD < 1/5 →
      postUploads cfg store req₁ parse d =
        (⟨400, .err "No audio file uploaded"⟩, store) ∧
      postUploads cfg store req₂ parse d =
        (⟨400, .err ("Unsupported audio format: " ++ f.mimetype ++
          ". Supported formats: M4A, WAV")⟩, store)) := by
  refine ⟨fun h => ?_, fun ha hb hc hd => ?_, fun ha hb _ => ?_⟩
  · constructor <;> simp [postUploads, h]
  · rcases floor_mul_two_cases hc hd with hfl | hfl <;>
      simp [postUploads, ha, hb, hfl, h₁, uploadErrors]
  · constructor <;> simp [postUploads, ha, hb, h₁, h₂, hf]

/-- Witness for C10: a missing audio file receives 504 under a timeout draw,
500 under a failure draw, and its 400 only when no random branch fires; an
unsupported format behaves likewise. -/
theorem random_branches_precede_validation_witness :
    (postUploads CONFIG [] wReqNoAudio wParseNone wDrawsT0).1.status = 504 ∧
    ((postUploads CONFIG [] wReqNoAudio wParseNone wDrawsF0).1.status = 500 ∨
      (postUploads CONFIG [] wReqNoAudio wParseNone wDrawsF0).1.status = 503) ∧
    postUploads CONFIG [] wReqNoAudio wParseNone wDraws =
      (⟨400, .err "No audio file uploaded"⟩, []) ∧
    postUploads CONFIG [] wReqBadFmt wParseNone wDraws =
      (⟨400, .err ("Unsupported audio format: " ++ wBadAudio.mimetype ++
        ". Supported formats: M4A, WAV")⟩, []) := by
  have hT := random_branches_precede_validation CONFIG [] wReqNoAudio
    wReqBadFmt wParseNone wDrawsT0 wBadAudio rfl rfl (by decide)
  have hF := random_branches_precede_validation CONFIG [] wReqNoAudio
    wReqBadFmt wParseNone wDrawsF0 wBadAudio rfl rfl (by decide)
  have hN := random_branches_precede_validation CONFIG [] wReqNoAudio
    wReqBadFmt wParseNone wDraws wBadAudio rfl rfl (by decide)
  refine ⟨(hT.1 (by norm_num [wDrawsT0, CONFIG])).1, ?_, ?_, ?_⟩
  · exact hF.2.1 (by norm_num [wDrawsF0, CONFIG]) (by norm_num [wDrawsF0, CONFIG])
      (by norm_num [wDrawsF0]) (by norm_num [wDrawsF0])
  · exact (hN.2.2 (by norm_num [wDraws, CONFIG]) (by norm_num [wDraws, CONFIG])
      (by norm_num [wDraws])).1
  · exact (hN.2.2 (by norm_num [wDraws, CONFIG]) (by norm_num [wDraws, CONFIG])
      (by norm_num [wDraws])).2

end Server
